import Mathlib

/-
Verification of the GTOC assistant (ai_response.py): corpus indexing,
query routing, and the score-gated generation/revision loop.

Strings are modelled as `List Char`.  Python regular-expression searches
used by the program are modelled by explicit leftmost-match scanners.
The language-model gateway is modelled as an oracle function from
prompts to completions; the filesystem is modelled as an explicit tree
carrying, for each entry, the text that `extract_text_from_pdf` would
return for it.
-/

set_option maxRecDepth 4000

/-- Characters treated as whitespace by Python's `\s` class and `str.strip`
(ASCII range). -/
def isWSChar (c : Char) : Bool :=
  c = ' ' || c = '\t' || c = '\n' || c = '\r' || c = '\x0b' || c = '\x0c'

/-- Model of Python `str.lower` (ASCII range). -/
def toLowerL (l : List Char) : List Char := l.map Char.toLower

/-- Model of Python `str.upper` (ASCII range). -/
def upperL (l : List Char) : List Char := l.map Char.toUpper

/-- Model of Python `str.strip`: drop whitespace from both ends. -/
def trimL (l : List Char) : List Char :=
  ((l.dropWhile isWSChar).reverse.dropWhile isWSChar).reverse

/-- Model of Python `str.replace("\n", " ")`. -/
def replaceNl (l : List Char) : List Char :=
  l.map (fun c => if c = '\n' then ' ' else c)

/-- Digits of a matched `\d+` group converted to a number (Python `int`). -/
def digitsToNat (l : List Char) : Nat :=
  l.foldl (fun a c => a * 10 + (c.toNat - ('0').toNat)) 0

/-- Decimal rendering of a number, as Python string interpolation does. -/
def natChars (n : Nat) : List Char := (Nat.repr n).toList

/-- Split a list on the first occurrence of `m`: returns the part strictly
before the first occurrence and the part strictly after it.  Models the
pair `(parts[0], parts[1])` of Python `s.split(m, 1)` when `m` occurs. -/
def splitFirst (m : List Char) : List Char → Option (List Char × List Char)
  | [] => if m.isPrefixOf ([] : List Char) then some ([], []) else none
  | c :: cs =>
    if m.isPrefixOf (c :: cs) then some ([], (c :: cs).drop m.length)
    else (splitFirst m cs).map (fun pr => (c :: pr.1, pr.2))

/-- Model of Python's `m in s` substring test. -/
def containsSub (m l : List Char) : Bool := (splitFirst m l).isSome

/-- Model of Python `s.lower().endswith(suf)` style suffix tests. -/
def endsWithL (suf l : List Char) : Bool := suf.isSuffixOf l

/-- Leftmost match of the pattern fragment `Score:\s*(\d+)` anchored at the
start of the list: the literal label, then greedy whitespace, then a
nonempty digit group, returned as a number. -/
def scoreAt (l : List Char) : Option Nat :=
  if ("Score:").toList.isPrefixOf l then
    let ds := ((l.drop 6).dropWhile isWSChar).takeWhile Char.isDigit
    if ds = [] then none else some (digitsToNat ds)
  else none

/-- Model of `re.search(r"Score:\s*(\d+)", s)`: scan left to right for the
first position where the anchored pattern matches. -/
def findScore : List Char → Option Nat
  | [] => none
  | c :: cs =>
    match scoreAt (c :: cs) with
    | some n => some n
    | none => findScore cs

/-- The score extracted from a critique text; 0 when no `Score:` number is
parseable (the fail-closed branch of `create_fake_gtoc`). -/
def parseScore (critique : List Char) : Nat := (findScore critique).getD 0

/-- Leftmost match of the fragment `gtoc\s*(\d+)` anchored at the start of
the list. -/
def gtocAt (l : List Char) : Option Nat :=
  if ("gtoc").toList.isPrefixOf l then
    let ds := ((l.drop 4).dropWhile isWSChar).takeWhile Char.isDigit
    if ds = [] then none else some (digitsToNat ds)
  else none

/-- Model of `re.search(r"gtoc\s*(\d+)", s)`. -/
def findGtocNum : List Char → Option Nat
  | [] => none
  | c :: cs =>
    match gtocAt (c :: cs) with
    | some n => some n
    | none => findGtocNum cs

/-- Anchored match of the alternation `(1st|first|2nd|second|3rd|third)`,
the alternatives tried in the pattern's order; returns the matched token. -/
def placeAt (l : List Char) : Option (List Char) :=
  if ("1st").toList.isPrefixOf l then some (("1st").toList)
  else if ("first").toList.isPrefixOf l then some (("first").toList)
  else if ("2nd").toList.isPrefixOf l then some (("2nd").toList)
  else if ("second").toList.isPrefixOf l then some (("second").toList)
  else if ("3rd").toList.isPrefixOf l then some (("3rd").toList)
  else if ("third").toList.isPrefixOf l then some (("third").toList)
  else none

/-- Model of `re.search(r"(1st|first|2nd|second|3rd|third)", s)`. -/
def findPlace : List Char → Option (List Char)
  | [] => none
  | c :: cs =>
    match placeAt (c :: cs) with
    | some t => some t
    | none => findPlace cs

/-- The `place_map` dictionary of `parse_gtoc_request`, applied to a token
matched by `findPlace`. -/
def placeCanon (tok : List Char) : List Char :=
  if tok = ("1st").toList || tok = ("first").toList then ("1st").toList
  else if tok = ("2nd").toList || tok = ("second").toList then ("2nd").toList
  else ("3rd").toList

/-- Scan for `gtoc\s*\d+` reachable from the current position through the
lazy `.*?` of the generation-intent pattern: `.` does not cross a newline,
so the scan stops at `'\n'` (the `\s*` inside `gtocAt` may still cross
newlines). -/
def genScanFrom : List Char → Option Nat
  | [] => none
  | c :: cs =>
    match gtocAt (c :: cs) with
    | some n => some n
    | none => if c = '\n' then none else genScanFrom cs

/-- Anchored match of one verb alternative followed by `.*?gtoc\s*(\d+)`. -/
def verbAt (v l : List Char) : Option Nat :=
  if v.isPrefixOf l then genScanFrom (l.drop v.length) else none

/-- Model of `re.search(r"(?:create|generate|make).*?gtoc\s*(\d+)", s)`:
leftmost starting position wins; at a position the verb alternatives are
tried in the pattern's order. -/
def genFind : List Char → Option Nat
  | [] => none
  | c :: cs =>
    match verbAt (("create").toList) (c :: cs) with
    | some n => some n
    | none =>
      match verbAt (("generate").toList) (c :: cs) with
      | some n => some n
      | none =>
        match verbAt (("make").toList) (c :: cs) with
        | some n => some n
        | none => genFind cs

/-- A rank key (`"1st"`, `"2nd"`, `"3rd"`, `"other"`) paired with the text
of the single retained document: the `placement_map` dictionary. -/
abbrev PlacementMap := List (List Char × List Char)

/-- The `gtoc_data` dictionary: event key (lowercased folder name) to
placement map. -/
abbrev GtocIndex := List (List Char × PlacementMap)

/-- Python dict assignment `d[k] = v` on an association list with unique
keys: replace the value at `k` in place, or append `(k, v)`. -/
def dictInsert : List (List Char × α) → List Char → α → List (List Char × α)
  | [], k, v => [(k, v)]
  | p :: rest, k, v =>
    if p.1 = k then (k, v) :: rest else p :: dictInsert rest k v

/-- Python `d.get(k)` / `d[k]` lookup on an association list. -/
def dictLookup (d : List (List Char × α)) (k : List Char) : Option α :=
  (d.find? (fun p => decide (p.1 = k))).map (fun p => p.2)

/-- An entry of a rank folder: its file name and the text
`extract_text_from_pdf` would return for its path (for an unreadable
document this is the error string the extractor substitutes). -/
structure DocEntry where
  name : List Char
  text : List Char
  deriving DecidableEq

/-- An entry of an event folder: a possible rank subfolder.  `isDir`
records the `os.path.isdir` answer; `text` is what the extractor would
return for the entry's own path (used by `load_past_problem_statements`,
which scans this level without an `isdir` check); `docs` lists the
entry's own directory listing when it is a directory. -/
structure SubEntry where
  isDir : Bool
  name : List Char
  text : List Char
  docs : List DocEntry
  deriving DecidableEq

/-- An entry of the corpus root: a possible event folder. -/
structure RootEntry where
  isDir : Bool
  name : List Char
  subs : List SubEntry
  deriving DecidableEq

/-- Rank classification of `load_gtoc_pdfs_by_placement`: substring search
on the lowercased folder name. -/
def classifyRank (folderName : List Char) : List Char :=
  let f := toLowerL folderName
  if containsSub (("1st").toList) f then ("1st").toList
  else if containsSub (("2nd").toList) f then ("2nd").toList
  else if containsSub (("3rd").toList) f then ("3rd").toList
  else ("other").toList

/-- The first file of a rank folder (in traversal order) whose lowercased
name ends in `.pdf`, extracted: the inner loop of
`load_gtoc_pdfs_by_placement`, which stores one document and breaks. -/
def firstPdfText (docs : List DocEntry) : Option (List Char) :=
  (docs.find? (fun d => endsWithL ((".pdf").toList) (toLowerL d.name))).map
    (fun d => d.text)

/-- One step of the rank-folder loop of `load_gtoc_pdfs_by_placement`. -/
def pmStep (pm : PlacementMap) (s : SubEntry) : PlacementMap :=
  if s.isDir then
    match firstPdfText s.docs with
    | some t => dictInsert pm (classifyRank s.name) t
    | none => pm
  else pm

/-- The placement map built for one event folder. -/
def buildPlacementMap (subs : List SubEntry) : PlacementMap :=
  subs.foldl pmStep []

/-- One step of the event-folder loop of `load_gtoc_pdfs_by_placement`:
an event folder whose placement map is empty is skipped. -/
def loadStep (acc : GtocIndex) (e : RootEntry) : GtocIndex :=
  if e.isDir then
    let pm := buildPlacementMap e.subs
    if pm = [] then acc else dictInsert acc (toLowerL e.name) pm
  else acc

/-- `load_gtoc_pdfs_by_placement`: build the corpus index from the root
directory listing. -/
def load_gtoc_pdfs_by_placement (root : List RootEntry) : GtocIndex :=
  root.foldl loadStep []

/-- `load_past_problem_statements`: collect snippets of files at event-folder
level whose lowercased name ends in `.pdf` and contains `-problem`;
each snippet is stripped, newlines replaced by spaces, truncated to 1000
characters. -/
def load_past_problem_statements (root : List RootEntry) : List (List Char) :=
  root.foldl
    (fun probs e =>
      if e.isDir then
        e.subs.foldl
          (fun ps s =>
            if endsWithL ((".pdf").toList) (toLowerL s.name)
                && containsSub (("-problem").toList) (toLowerL s.name) then
              if s.text = [] then ps
              else ps ++ [(replaceNl (trimL s.text)).take 1000]
            else ps)
          probs
      else probs)
    []

/-- The marker token splitting narrative from table in a completion. -/
def tnMarker : List Char := ("Target Name").toList

/-- The placeholder problem text used when a draft lacks the marker. -/
def noProblemText : List Char := ("No problem generated").toList

/-- The header-only table used when a draft lacks the marker. -/
def csvHeader : List Char :=
  ("Target Name,Distance (AU),Delta-V (km/s),Time Window (days)").toList

/-- The marker-split step shared by the draft and revision passes of
`create_fake_gtoc`: when the completion contains `Target Name`, the
problem text becomes the stripped part before the first occurrence and
the table becomes the marker re-prefixed onto the stripped remainder;
otherwise the current pair is kept unchanged. -/
def markerSplitStep (cur : List Char × List Char) (response : List Char) :
    List Char × List Char :=
  match splitFirst tnMarker response with
  | some pr => (trimL pr.1, tnMarker ++ trimL pr.2)
  | none => cur

/-- The draft-step split of `create_fake_gtoc`: the current pair starts at
the fixed placeholder and header-only table. -/
def draftSplit (response : List Char) : List Char × List Char :=
  markerSplitStep (noProblemText, csvHeader) response

/-- The draft prompt of `create_fake_gtoc`. -/
def draftPrompt (n : Nat) (sample : List Char) : List Char :=
  ("Based on the style and content of previous GTOC problem statements below, create a new problem for a hypothetical GTOC").toList
    ++ natChars n
    ++ (". Include a mission description and objectives.\n\nThen generate fake mission data in CSV format (columns: Target Name, Distance (AU), Delta-V (km/s), Time Window (days)).\n\nPAST PROBLEMS:\n").toList
    ++ sample

/-- The critique prompt built by `get_xai_feedback`. -/
def xaiPrompt (generated sample : List Char) : List Char :=
  ("You are an expert judge of Global Trajectory Optimization Competition (GTOC) problem statements.\n\nEvaluate the following GENERATED PROBLEM compared to PAST PROBLEMS:\n- Score it 0 to 100 (alignment with past GTOCs).\n- Explain why you gave that score.\n- Suggest improvements.\n\nPAST PROBLEMS:\n").toList
    ++ sample
    ++ ("\n\nGENERATED PROBLEM:\n").toList
    ++ generated
    ++ ("\n\nYour response format:\nScore: (number)\nExplanation: (text)\nSuggestions: (text)\n").toList

/-- The revision prompt of `create_fake_gtoc`. -/
def fixPrompt (score : Nat) (problem sample fb : List Char) : List Char :=
  ("The following GTOC problem scored poorly (").toList
    ++ natChars score
    ++ ("). Please revise it to better match the style and depth of real GTOCs.\n\nProblem to fix:\n").toList
    ++ problem
    ++ ("\n\nReal examples:\n").toList
    ++ sample
    ++ ("\n\nSuggestions:\n").toList
    ++ fb

/-- One blocking round-trip through the language-model gateway, counting
the request. -/
def callLM (oracle : List Char → List Char) (prompt : List Char)
    (calls : Nat) : List Char × Nat :=
  (oracle prompt, calls + 1)

/-- The style sample of `create_fake_gtoc`: the first five collected
problem snippets joined by blank lines. -/
def sampleOf (fs : List RootEntry) : List Char :=
  List.intercalate (("\n\n").toList) ((load_past_problem_statements fs).take 5)

/-- The draft completion of `create_fake_gtoc` under a given oracle. -/
def draftResp (oracle : List Char → List Char) (fs : List RootEntry)
    (n : Nat) : List Char :=
  oracle (draftPrompt n (sampleOf fs))

/-- The (problem text, table text) pair after the draft step. -/
def draftPair (oracle : List Char → List Char) (fs : List RootEntry)
    (n : Nat) : List Char × List Char :=
  draftSplit (draftResp oracle fs n)

/-- The critique text returned for the draft problem. -/
def critiqueOf (oracle : List Char → List Char) (fs : List RootEntry)
    (n : Nat) : List Char :=
  oracle (xaiPrompt (draftPair oracle fs n).1 (sampleOf fs))

/-- The revision completion requested when the critique score is low. -/
def revResp (oracle : List Char → List Char) (fs : List RootEntry)
    (n : Nat) : List Char :=
  oracle (fixPrompt (parseScore (critiqueOf oracle fs n))
    (draftPair oracle fs n).1 (sampleOf fs) (critiqueOf oracle fs n))

/-- The three persisted outputs of one synthesis, together with the number
of completion requests it issued. -/
structure GenResult where
  problemText : List Char
  csvData : List Char
  xaiFeedback : List Char
  calls : Nat
  deriving DecidableEq

/-- `create_fake_gtoc`: draft, critique, and at most one score-gated
revision pass; the returned fields are the texts the function persists. -/
def create_fake_gtoc (oracle : List Char → List Char) (fs : List RootEntry)
    (n : Nat) : GenResult :=
  let sample := sampleOf fs
  let r1 := callLM oracle (draftPrompt n sample) 0
  let pc := draftSplit r1.1
  let r2 := callLM oracle (xaiPrompt pc.1 sample) r1.2
  let score := parseScore r2.1
  if score < 70 then
    let r3 := callLM oracle (fixPrompt score pc.1 sample r2.1) r2.2
    let pc2 := markerSplitStep pc r3.1
    ⟨pc2.1, pc2.2, r2.1, r3.2⟩
  else ⟨pc.1, pc.2, r2.1, r2.2⟩

/-- `parse_gtoc_request`: extract the event key (capped at 99) and the
optional placement key from a user input. -/
def parse_gtoc_request (input : List Char) :
    Option (List Char) × Option (List Char) :=
  let lower := toLowerL input
  let placement := (findPlace lower).map placeCanon
  match findGtocNum lower with
  | some n =>
    if 99 < n then (none, none)
    else (some ((("gtoc").toList) ++ natChars n), placement)
  | none => (none, placement)

/-- One labelled excerpt of the global context: an (event, rank) pair with
at most 500 characters of its document text. -/
def chunkOf (g p t : List Char) : List Char :=
  upperL g ++ (" ").toList ++ upperL p ++ ((":\n").toList) ++ t.take 500
    ++ ("\n\n").toList

/-- The `all_text` accumulator of the global-answer branch of
`start_chatbot`. -/
def allText (d : GtocIndex) : List Char :=
  d.foldl
    (fun acc gp =>
      gp.2.foldl (fun acc2 pt => acc2 ++ chunkOf gp.1 pt.1 pt.2) acc)
    []

/-- The labelled excerpts of the global context in index order. -/
def globalChunks (d : GtocIndex) : List (List Char) :=
  d.flatMap (fun gp => gp.2.map (fun pt => chunkOf gp.1 pt.1 pt.2))

/-- The outcome of one iteration of the `start_chatbot` loop. -/
inductive BotAction where
  | exitSession : BotAction
  | generate : Nat → BotAction
  | alreadyExists : Nat → BotAction
  | answer : List Char → BotAction
  deriving DecidableEq

/-- One iteration of `start_chatbot` on one line of user input:
the exit sentinel, then the generation-intent branch (with its
deduplication check), then the answer branches of the router. -/
def chatbotStep (d : GtocIndex) (input : List Char) : BotAction :=
  let lower := toLowerL input
  if lower = ("exit").toList then .exitSession
  else
    match genFind lower with
    | some n =>
      if dictLookup d ((("gtoc").toList) ++ natChars n) = none then .generate n
      else .alreadyExists n
    | none =>
      match (parse_gtoc_request input).1 with
      | some gkey =>
        match dictLookup d gkey with
        | some fd =>
          match (parse_gtoc_request input).2 with
          | some p =>
            match dictLookup fd p with
            | some content =>
              .answer (("Based only on this content:\n\n").toList
                ++ content.take 2000 ++ ("\n\nAnswer this:\n").toList ++ input)
            | none =>
              .answer (("No info for ").toList ++ p ++ (" in ").toList
                ++ upperL gkey ++ (".").toList)
          | none =>
            .answer (("Here's info for ").toList ++ upperL gkey
              ++ ((":\n").toList)
              ++ List.intercalate (("\n\n").toList)
                  (fd.map (fun pt =>
                    upperL pt.1 ++ (" PLACE:\n").toList ++ pt.2.take 800))
              ++ ("\n\nUser asked: ").toList ++ input)
        | none => .answer (upperL gkey ++ (" not found.").toList)
      | none =>
        .answer (("Based on all known GTOCs:\n\n").toList
          ++ (allText d).take 3000 ++ ("\n\nUser's question: ").toList ++ input)

lemma mem_dictInsert {α : Type} (d : List (List Char × α)) (k : List Char)
    (v : α) : ∀ p ∈ dictInsert d k v, p ∈ d ∨ p = (k, v) := by
  induction d with
  | nil => intro p hp; simp [dictInsert] at hp; right; exact hp
  | cons q rest ih =>
    intro p hp
    by_cases hq : q.1 = k
    · simp only [dictInsert, if_pos hq, List.mem_cons] at hp
      rcases hp with h | h
      · right; exact h
      · left; exact List.mem_cons_of_mem _ h
    · simp only [dictInsert, if_neg hq, List.mem_cons] at hp
      rcases hp with h | h
      · left; exact h ▸ List.mem_cons_self _ _
      · rcases ih p h with h2 | h2
        · left; exact List.mem_cons_of_mem _ h2
        · right; exact h2

lemma dictLookup_cons_eq {α : Type} (q : List Char × α)
    (rest : List (List Char × α)) (k2 : List Char) (h : q.1 = k2) :
    dictLookup (q :: rest) k2 = some q.2 := by
  simp [dictLookup, List.find?, h]

lemma dictLookup_cons_ne {α : Type} (q : List Char × α)
    (rest : List (List Char × α)) (k2 : List Char) (h : ¬ q.1 = k2) :
    dictLookup (q :: rest) k2 = dictLookup rest k2 := by
  simp [dictLookup, List.find?, h]

lemma dictLookup_insert {α : Type} (d : List (List Char × α)) (k : List Char)
    (v : α) (k2 : List Char) :
    dictLookup (dictInsert d k v) k2
      = if k2 = k then some v else dictLookup d k2 := by
  induction d with
  | nil =>
    by_cases h : k2 = k
    · rw [if_pos h]
      exact dictLookup_cons_eq (k, v) [] k2 h.symm
    · rw [if_neg h]
      rw [show dictInsert ([] : List (List Char × α)) k v = [(k, v)] from rfl]
      rw [dictLookup_cons_ne (k, v) [] k2 (fun e => h e.symm)]
  | cons q rest ih =>
    by_cases hq : q.1 = k
    · rw [show dictInsert (q :: rest) k v = (k, v) :: rest by
        simp [dictInsert, hq]]
      by_cases h : k2 = k
      · rw [if_pos h, dictLookup_cons_eq (k, v) rest k2 h.symm]
      · rw [if_neg h, dictLookup_cons_ne (k, v) rest k2 (fun e => h e.symm),
          dictLookup_cons_ne q rest k2 (fun e => h ((hq ▸ e : k = k2)).symm)]
    · rw [show dictInsert (q :: rest) k v = q :: dictInsert rest k v by
        simp [dictInsert, hq]]
      by_cases h2 : q.1 = k2
      · have hk : ¬ k2 = k := fun e => hq (by rw [h2, e])
        rw [if_neg hk, dictLookup_cons_eq q _ k2 h2,
          dictLookup_cons_eq q rest k2 h2]
      · rw [dictLookup_cons_ne q _ k2 h2, dictLookup_cons_ne q rest k2 h2, ih]

lemma dictInsert_nodupKeys {α : Type} (d : List (List Char × α))
    (k : List Char) (v : α) (h : (d.map (fun p => p.1)).Nodup) :
    ((dictInsert d k v).map (fun p => p.1)).Nodup := by
  induction d with
  | nil => simp [dictInsert]
  | cons q rest ih =>
    by_cases hq : q.1 = k
    · rw [show dictInsert (q :: rest) k v = (k, v) :: rest by
        simp [dictInsert, hq]]
      rw [List.map_cons] at h
      rw [List.map_cons, List.nodup_cons]
      rw [List.nodup_cons] at h
      exact ⟨by rw [show (k, v).1 = q.1 from hq.symm]; exact h.1, h.2⟩
    · rw [show dictInsert (q :: rest) k v = q :: dictInsert rest k v by
        simp [dictInsert, hq]]
      rw [List.map_cons] at h
      rw [List.map_cons, List.nodup_cons]
      rw [List.nodup_cons] at h
      refine ⟨?_, ih h.2⟩
      intro hmem
      rcases List.mem_map.mp hmem with ⟨p, hp, hp1⟩
      rcases mem_dictInsert rest k v p hp with h3 | h3
      · exact h.1 (List.mem_map.mpr ⟨p, h3, hp1⟩)
      · apply hq
        rw [h3] at hp1
        exact hp1.symm

/-- The claim of C6, proved below: every event key present in the built
index maps to a non-empty placement map. -/
theorem index_values_nonempty (root : List RootEntry) :
    ∀ p ∈ load_gtoc_pdfs_by_placement root, p.2 ≠ ([] : PlacementMap) := by
  suffices haux : ∀ (es : List RootEntry) (acc : GtocIndex),
      (∀ p ∈ acc, p.2 ≠ ([] : PlacementMap)) →
      ∀ p ∈ es.foldl loadStep acc, p.2 ≠ ([] : PlacementMap) by
    exact haux root [] (by simp)
  intro es
  induction es with
  | nil => intro acc h; exact h
  | cons e rest ih =>
    intro acc h
    apply ih
    intro p hp
    unfold loadStep at hp
    by_cases hd : e.isDir = true
    · rw [if_pos hd] at hp
      by_cases hpm : buildPlacementMap e.subs = []
      · rw [if_pos hpm] at hp; exact h p hp
      · rw [if_neg hpm] at hp
        rcases mem_dictInsert acc (toLowerL e.name) (buildPlacementMap e.subs)
            p hp with h2 | h2
        · exact h p h2
        · rw [h2]; exact hpm
    · rw [if_neg hd] at hp; exact h p hp

/-- The contribution of one event-subfolder entry to rank key `k`: when the
entry is a directory classifying to `k`, the text of the first file in it
whose lowercased name ends in `.pdf` (none when the entry is not a
directory, classifies elsewhere, or holds no such file). -/
def candFor (k : List Char) (s : SubEntry) : Option (List Char) :=
  if s.isDir = true ∧ classifyRank s.name = k then firstPdfText s.docs
  else none

lemma pm_foldl_lookup (subs : List SubEntry) (pm : PlacementMap)
    (k : List Char) :
    dictLookup (subs.foldl pmStep pm) k
      = Option.orElse ((subs.filterMap (candFor k)).getLast?)
          (fun _ => dictLookup pm k) := by
  induction subs generalizing pm with
  | nil => simp [Option.orElse]
  | cons s rest ih =>
    rw [List.foldl_cons, ih (pmStep pm s)]
    by_cases hd : s.isDir = true
    · cases hf : firstPdfText s.docs with
      | some t =>
        by_cases hk : classifyRank s.name = k
        · have hc : candFor k s = some t := by simp [candFor, hd, hk, hf]
          have hstep : pmStep pm s = dictInsert pm k t := by
            simp [pmStep, hd, hf, hk]
          rw [hstep, List.filterMap_cons, hc]
          rw [show dictLookup (dictInsert pm k t) k = some t by
            rw [dictLookup_insert]; simp]
          cases hcr : (rest.filterMap (candFor k)) with
          | nil => simp [Option.orElse]
          | cons b bs =>
            rw [List.getLast?_cons_cons]
            cases hgl : (b :: bs).getLast? with
            | none =>
              exact absurd (List.getLast?_eq_none_iff.mp hgl) (by simp)
            | some x => simp [Option.orElse, hgl]
        · have hc : candFor k s = none := by simp [candFor, hk]
          have hstep : pmStep pm s = dictInsert pm (classifyRank s.name) t := by
            simp [pmStep, hd, hf]
          rw [hstep, List.filterMap_cons, hc]
          rw [show dictLookup (dictInsert pm (classifyRank s.name) t) k
              = dictLookup pm k by
            rw [dictLookup_insert]; rw [if_neg (fun e => hk e.symm)]]
      | none =>
        have hc : candFor k s = none := by simp [candFor, hf]
        have hstep : pmStep pm s = pm := by simp [pmStep, hd, hf]
        rw [hstep, List.filterMap_cons, hc]
    · have hc : candFor k s = none := by simp [candFor, hd]
      have hstep : pmStep pm s = pm := by simp [pmStep, hd]
      rw [hstep, List.filterMap_cons, hc]

/-- C4 (amended): the placement map keeps at most one entry per rank key,
and the text retained at rank `k` is the contribution of the `last` event
subfolder classifying to `k` that holds a matching file — each later
same-rank folder replaces the earlier entry, while within one folder the
first matching file wins (`firstPdfText` is a first-match search). -/
theorem rank_retention_amended (subs : List SubEntry) (k : List Char) :
    ((buildPlacementMap subs).map (fun p => p.1)).Nodup
    ∧ dictLookup (buildPlacementMap subs) k
        = (subs.filterMap (candFor k)).getLast? := by
  constructor
  · suffices haux : ∀ (ss : List SubEntry) (pm : PlacementMap),
        (pm.map (fun p => p.1)).Nodup →
        ((ss.foldl pmStep pm).map (fun p => p.1)).Nodup by
      exact haux subs [] (by simp)
    intro ss
    induction ss with
    | nil => intro pm h; exact h
    | cons s rest ih =>
      intro pm h
      apply ih
      unfold pmStep
      by_cases hd : s.isDir = true
      · rw [if_pos hd]
        cases hf : firstPdfText s.docs with
        | some t => exact dictInsert_nodupKeys pm _ t h
        | none => exact h
      · rw [if_neg hd]; exact h
  · have h := pm_foldl_lookup subs [] k
    rw [buildPlacementMap] at *
    rw [h]
    cases hx : (subs.filterMap (candFor k)).getLast? with
    | none => simp [Option.orElse, dictLookup]
    | some x => simp [Option.orElse]

/-- C4 (counterexample): with two rank folders of one event both classifying
as `other`, the first matching document in traversal order is `T1`, but the
builder retains `T2`, the later folder's document — the later match
replaces the earlier entry instead of being discarded. -/
theorem rank_retention_counterexample :
    (([⟨true, ("alpha").toList, [], [⟨("x.pdf").toList, ("T1").toList⟩]⟩,
       ⟨true, ("beta").toList, [], [⟨("y.pdf").toList, ("T2").toList⟩]⟩]
        : List SubEntry).filterMap
          (candFor (("other").toList))).head? = some (("T1").toList)
    ∧ dictLookup
        (buildPlacementMap
          [⟨true, ("alpha").toList, [], [⟨("x.pdf").toList, ("T1").toList⟩]⟩,
           ⟨true, ("beta").toList, [], [⟨("y.pdf").toList, ("T2").toList⟩]⟩])
        (("other").toList) = some (("T2").toList)
    ∧ ¬ ("T2").toList = ("T1").toList := by decide

/-- C8: rank classification is substring search on the lowercased folder
name, with the documented outcomes on the four sample names. -/
theorem rank_classification :
    classifyRank (("Winner-1st-Place").toList) = ("1st").toList
    ∧ classifyRank (("2ND runner up").toList) = ("2nd").toList
    ∧ classifyRank (("bronze-3rd").toList) = ("3rd").toList
    ∧ classifyRank (("Honorable").toList) = ("other").toList := by decide

/-- C6 (witness): a concrete corpus whose single event key maps to a
non-empty placement map. -/
theorem index_values_nonempty_witness :
    ¬ ([((("other").toList), ("T1").toList)] : PlacementMap) = [] :=
  index_values_nonempty
    [⟨true, ("GtocA").toList,
      [⟨true, ("alpha").toList, [], [⟨("x.pdf").toList, ("T1").toList⟩]⟩]⟩]
    ((("gtoca").toList), [((("other").toList), ("T1").toList)])
    (by decide)

lemma splitFirst_append (m p r : List Char)
    (hmin : ∀ i, i < p.length → m.isPrefixOf ((p ++ m ++ r).drop i) = false) :
    splitFirst m (p ++ m ++ r) = some (p, r) := by
  induction p with
  | nil =>
    simp only [List.nil_append]
    cases m with
    | nil =>
      cases r with
      | nil => simp [splitFirst]
      | cons c cs => simp [splitFirst, List.isPrefixOf]
    | cons a as =>
      rw [List.cons_append, splitFirst]
      rw [if_pos ?hpre]
      case hpre =>
        rw [← List.cons_append]
        exact List.isPrefixOf_iff_prefix.mpr (List.prefix_append _ _)
      rw [← List.cons_append, List.drop_left]
  | cons a p2 ih =>
    have h0 := hmin 0 (by simp)
    rw [List.drop_zero] at h0
    rw [List.cons_append, List.cons_append] at h0 ⊢
    rw [splitFirst, if_neg (by rw [h0]; exact fun h => Bool.noConfusion h)]
    rw [ih (fun i hi => by
      have h2 := hmin (i + 1) (by simp; omega)
      rw [List.cons_append, List.cons_append, List.drop_succ_cons] at h2
      exact h2)]
    rfl

lemma markerSplitStep_of_absent (cur : List Char × List Char)
    (response : List Char) (h : containsSub tnMarker response = false) :
    markerSplitStep cur response = cur := by
  unfold markerSplitStep
  cases hs : splitFirst tnMarker response with
  | none => rfl
  | some pr =>
    rw [containsSub, hs] at h
    exact absurd h (by simp)

/-- C2 (amended): when the completion decomposes around the first occurrence
of `Target Name`, the problem text is the stripped part before the marker
and the table text is the marker re-prefixed onto the `stripped` remainder;
when the marker is absent, the fixed placeholder and the header-only table
are produced — the split never fails. -/
theorem marker_split_amended :
    (∀ (p r : List Char),
      (∀ i, i < p.length →
        tnMarker.isPrefixOf ((p ++ tnMarker ++ r).drop i) = false) →
      draftSplit (p ++ tnMarker ++ r) = (trimL p, tnMarker ++ trimL r))
    ∧ (∀ response : List Char, containsSub tnMarker response = false →
      draftSplit response = (noProblemText, csvHeader)) := by
  constructor
  · intro p r hmin
    rw [draftSplit, markerSplitStep, splitFirst_append tnMarker p r hmin]
  · intro response h
    exact markerSplitStep_of_absent _ response h

/-- C2 (witness): the specification's sample completion splits into problem
text `Intro paragraph.` and a table starting at the marker, and a
marker-free completion yields the placeholder and header-only table. -/
theorem marker_split_amended_witness :
    draftSplit (("Intro paragraph.\nTarget Name,Distance,Delta-V,Time Window\nAlpha,1.2,3.4,10").toList)
      = (("Intro paragraph.").toList,
         ("Target Name,Distance,Delta-V,Time Window\nAlpha,1.2,3.4,10").toList)
    ∧ draftSplit (("totally malformed").toList) = (noProblemText, csvHeader) := by
  constructor
  · have h := marker_split_amended.1 (("Intro paragraph.\n").toList)
      ((",Distance,Delta-V,Time Window\nAlpha,1.2,3.4,10").toList)
      (by decide)
    rw [show ("Intro paragraph.\n").toList ++ tnMarker
        ++ ((",Distance,Delta-V,Time Window\nAlpha,1.2,3.4,10").toList)
        = (("Intro paragraph.\nTarget Name,Distance,Delta-V,Time Window\nAlpha,1.2,3.4,10").toList) by decide] at h
    rw [h]
    decide
  · exact marker_split_amended.2 (("totally malformed").toList) (by decide)

/-- C2 (counterexample): on a completion whose remainder after the marker
carries surrounding whitespace, the table text is not the marker re-prefixed
onto the raw remainder — the code strips the remainder first. -/
theorem marker_split_counterexample :
    splitFirst tnMarker (("X Target Name\n,B\n").toList)
      = some ((("X ").toList), (("\n,B\n").toList))
    ∧ ¬ (draftSplit (("X Target Name\n,B\n").toList)).2
        = tnMarker ++ ("\n,B\n").toList
    ∧ (draftSplit (("X Target Name\n,B\n").toList)).2
        = ("Target Name,B").toList := by decide

lemma create_eq (oracle : List Char → List Char) (fs : List RootEntry)
    (n : Nat) :
    create_fake_gtoc oracle fs n
      = if parseScore (critiqueOf oracle fs n) < 70 then
          ⟨(markerSplitStep (draftPair oracle fs n) (revResp oracle fs n)).1,
           (markerSplitStep (draftPair oracle fs n) (revResp oracle fs n)).2,
           critiqueOf oracle fs n, 3⟩
        else
          ⟨(draftPair oracle fs n).1, (draftPair oracle fs n).2,
           critiqueOf oracle fs n, 2⟩ := rfl

/-- C1: the synthesis loop issues exactly one completion request after the
critique when the parsed score is below 70 (three requests in total), zero
otherwise (two in total); an unparseable critique counts as score 0 and so
forces the single revision; the loop never issues more than three requests,
i.e. at most one revision pass occurs; the critique text it persists is the
oracle's answer to the critique prompt. -/
theorem score_gated_revision (oracle : List Char → List Char)
    (fs : List RootEntry) (n : Nat) :
    (create_fake_gtoc oracle fs n).calls
        = 2 + (if parseScore (critiqueOf oracle fs n) < 70 then 1 else 0)
    ∧ (findScore (critiqueOf oracle fs n) = none →
        (create_fake_gtoc oracle fs n).calls = 3)
    ∧ (create_fake_gtoc oracle fs n).calls ≤ 3
    ∧ (create_fake_gtoc oracle fs n).xaiFeedback = critiqueOf oracle fs n := by
  refine ⟨?_, ?_, ?_, ?_⟩
  · rw [create_eq]
    by_cases hs : parseScore (critiqueOf oracle fs n) < 70
    · rw [if_pos hs, if_pos hs]
    · rw [if_neg hs, if_neg hs]
  · intro hf
    have hs : parseScore (critiqueOf oracle fs n) < 70 := by
      rw [parseScore, hf]; decide
    rw [create_eq, if_pos hs]
  · rw [create_eq]
    by_cases hs : parseScore (critiqueOf oracle fs n) < 70
    · rw [if_pos hs]
    · rw [if_neg hs]; exact Nat.le_succ 2
  · rw [create_eq]
    by_cases hs : parseScore (critiqueOf oracle fs n) < 70
    · rw [if_pos hs]
    · rw [if_neg hs]

/-- C1 (witness): a critique with no parseable score forces the single
revision call, for a total of three completion requests. -/
theorem score_gated_revision_witness :
    (create_fake_gtoc (fun _ => ("no score here").toList) [] 9).calls = 3 :=
  (score_gated_revision (fun _ => ("no score here").toList) [] 9).2.1
    (by decide)

/-- C9: in the revision pass (entered when the parsed score is below 70),
a revision completion lacking the `Target Name` marker leaves the problem
text and table text exactly as the draft step produced them — the
placeholder fallback belongs to the draft step only. -/
theorem revision_frame (oracle : List Char → List Char) (fs : List RootEntry)
    (n : Nat) (h1 : parseScore (critiqueOf oracle fs n) < 70)
    (h2 : containsSub tnMarker (revResp oracle fs n) = false) :
    (create_fake_gtoc oracle fs n).problemText = (draftPair oracle fs n).1
    ∧ (create_fake_gtoc oracle fs n).csvData = (draftPair oracle fs n).2 := by
  rw [create_eq, if_pos h1,
    markerSplitStep_of_absent (draftPair oracle fs n) (revResp oracle fs n) h2]
  exact ⟨rfl, rfl⟩

/-- C9 (witness): a constant oracle returning marker-free text scores 0,
enters the revision pass, and keeps the draft-step pair. -/
theorem revision_frame_witness :
    (create_fake_gtoc (fun _ => ("junk").toList) [] 12).problemText
      = (draftPair (fun _ => ("junk").toList) [] 12).1
    ∧ (create_fake_gtoc (fun _ => ("junk").toList) [] 12).csvData
      = (draftPair (fun _ => ("junk").toList) [] 12).2 :=
  revision_frame (fun _ => ("junk").toList) [] 12 (by decide) (by decide)

lemma genFind_ne_exit {input : List Char} {n : Nat}
    (hg : genFind (toLowerL input) = some n) :
    ¬ toLowerL input = ("exit").toList := by
  intro he
  rw [he] at hg
  rw [show genFind (("exit").toList) = none by decide] at hg
  exact Option.noConfusion hg

/-- C3: when the generation-intent pattern matches and the event key is
already present in the index, the session loop answers `already exists`
and does not invoke synthesis; conversely a synthesis invocation happens
only for an event key absent from the index. -/
theorem dedup_guarantee (d : GtocIndex) (input : List Char) (n : Nat) :
    (genFind (toLowerL input) = some n →
      ¬ dictLookup d ((("gtoc").toList) ++ natChars n) = none →
      chatbotStep d input = .alreadyExists n)
    ∧ (∀ m : Nat, chatbotStep d input = .generate m →
      dictLookup d ((("gtoc").toList) ++ natChars m) = none) := by
  constructor
  · intro hg hmem
    simp only [chatbotStep, if_neg (genFind_ne_exit hg), hg]
    rw [if_neg hmem]
  · intro m hstep
    by_cases he : toLowerL input = ("exit").toList
    · simp only [chatbotStep, if_pos he] at hstep
      exact BotAction.noConfusion hstep
    · cases hg : genFind (toLowerL input) with
      | none =>
        simp only [chatbotStep, if_neg he, hg] at hstep
        repeat' split at hstep
        all_goals exact BotAction.noConfusion hstep
      | some k =>
        simp only [chatbotStep, if_neg he, hg] at hstep
        by_cases hl : dictLookup d ((("gtoc").toList) ++ natChars k) = none
        · rw [if_pos hl] at hstep
          injection hstep with hkm
          rw [← hkm]
          exact hl
        · rw [if_neg hl] at hstep
          exact BotAction.noConfusion hstep

/-- C3 (witness): `create gtoc5` against an index already holding key
`gtoc5` yields the already-exists outcome, not a synthesis. -/
theorem dedup_guarantee_witness :
    chatbotStep [((("gtoc5").toList), [((("1st").toList), ("x").toList)])]
      (("create gtoc5").toList) = .alreadyExists 5 :=
  (dedup_guarantee [((("gtoc5").toList), [((("1st").toList), ("x").toList)])]
    (("create gtoc5").toList) 5).1 (by decide) (by decide)

/-- C5: on the answer path, an event number above 99 at the leftmost
`gtoc`-number match makes `parse_gtoc_request` treat the event as not
found: it returns no event key (and no placement key), so no numeric
event-key match is ever produced. -/
theorem event_number_cap (input : List Char) (m : Nat)
    (hfind : findGtocNum (toLowerL input) = some m) (hcap : 99 < m) :
    parse_gtoc_request input = (none, none) := by
  simp only [parse_gtoc_request, hfind]
  rw [if_pos hcap]

/-- C5 (witness): event number 100 (even next to a rank word) parses to no
event key and no placement key. -/
theorem event_number_cap_witness :
    parse_gtoc_request (("what about gtoc100 first").toList) = (none, none) :=
  event_number_cap (("what about gtoc100 first").toList) 100
    (by decide) (by decide)

/-- C10: the 99 cap is not applied on the generation path — a
generation-intent input naming an event number of 100 or more whose key is
absent from the index still invokes synthesis for that number. -/
theorem gen_path_uncapped (d : GtocIndex) (input : List Char) (n : Nat)
    (hg : genFind (toLowerL input) = some n) (_hcap : 100 ≤ n)
    (habs : dictLookup d ((("gtoc").toList) ++ natChars n) = none) :
    chatbotStep d input = .generate n := by
  simp only [chatbotStep, if_neg (genFind_ne_exit hg), hg]
  rw [if_pos habs]

/-- C10 (witness): `create gtoc100` on an empty index invokes synthesis for
event 100. -/
theorem gen_path_uncapped_witness :
    chatbotStep [] (("create gtoc100").toList) = .generate 100 :=
  gen_path_uncapped [] (("create gtoc100").toList) 100
    (by decide) (by decide) (by decide)

lemma allText_inner (pm : PlacementMap) (g : List Char) (acc : List Char) :
    pm.foldl (fun acc2 pt => acc2 ++ chunkOf g pt.1 pt.2) acc
      = acc ++ (pm.map (fun pt => chunkOf g pt.1 pt.2)).flatten := by
  induction pm generalizing acc with
  | nil => simp
  | cons pt rest ih =>
    rw [List.foldl_cons, ih, List.map_cons, List.flatten_cons,
      List.append_assoc]

lemma allText_eq (d : GtocIndex) : allText d = (globalChunks d).flatten := by
  suffices haux : ∀ (es : GtocIndex) (acc : List Char),
      es.foldl
        (fun acc gp =>
          gp.2.foldl (fun acc2 pt => acc2 ++ chunkOf gp.1 pt.1 pt.2) acc)
        acc
      = acc ++ (globalChunks es).flatten by
    have h := haux d []
    rw [List.nil_append] at h
    exact h
  intro es
  induction es with
  | nil => intro acc; simp [globalChunks]
  | cons gp rest ih =>
    intro acc
    rw [List.foldl_cons, allText_inner, ih]
    simp [globalChunks, List.flatten_append, List.append_assoc]

/-- C7: in the global-answer branch the constructed prompt's context
portion is the concatenation of the labelled per-(event, rank) excerpts —
each holding at most 500 characters of document text — truncated to its
first 3000 characters; whenever the concatenation exceeds 3000 characters
the context portion is exactly 3000 characters long, and the user's
question is appended after it. -/
theorem global_prompt_truncation (d : GtocIndex) (input : List Char)
    (h1 : ¬ toLowerL input = ("exit").toList)
    (h2 : genFind (toLowerL input) = none)
    (h3 : (parse_gtoc_request input).1 = none) :
    chatbotStep d input
      = .answer (("Based on all known GTOCs:\n\n").toList
          ++ (allText d).take 3000
          ++ ("\n\nUser's question: ").toList ++ input)
    ∧ allText d = (globalChunks d).flatten
    ∧ (∀ gp ∈ d, ∀ pt ∈ gp.2, (chunkOf gp.1 pt.1 pt.2).length
        ≤ (upperL gp.1).length + (upperL pt.1).length + 500 + 5)
    ∧ (3000 < (allText d).length → ((allText d).take 3000).length = 3000) := by
  refine ⟨?_, allText_eq d, ?_, ?_⟩
  · simp only [chatbotStep, if_neg h1, h2, h3]
  · intro gp _ pt _
    rw [chunkOf]
    simp only [List.length_append]
    have h4 : (pt.2.take 500).length ≤ 500 := List.length_take_le 500 pt.2
    simp [List.length_map]
    omega
  · intro hlen
    rw [List.length_take]
    omega

/-- A six-entry corpus used to exercise the 3000-character truncation. -/
def truncIdx : GtocIndex :=
  [(['g'], [(['r'], List.replicate 500 'a')]),
   (['h'], [(['r'], List.replicate 500 'a')]),
   (['i'], [(['r'], List.replicate 500 'a')]),
   (['j'], [(['r'], List.replicate 500 'a')]),
   (['k'], [(['r'], List.replicate 500 'a')]),
   (['l'], [(['r'], List.replicate 500 'a')])]

lemma chunk_len (g p t : List Char) :
    (chunkOf g p t).length
      = g.length + 1 + p.length + 2 + (t.take 500).length + 2 := by
  have e1 : (((" ")).toList).length = 1 := by decide
  have e2 : (((":\n")).toList).length = 2 := by decide
  have e3 : ((("\n\n")).toList).length = 2 := by decide
  simp [chunkOf, upperL, e1, e2, e3]
  omega

lemma truncIdx_len : 3000 < (allText truncIdx).length := by
  have h : allText truncIdx
      = ((((([] ++ chunkOf ['g'] ['r'] (List.replicate 500 'a'))
          ++ chunkOf ['h'] ['r'] (List.replicate 500 'a'))
          ++ chunkOf ['i'] ['r'] (List.replicate 500 'a'))
          ++ chunkOf ['j'] ['r'] (List.replicate 500 'a'))
          ++ chunkOf ['k'] ['r'] (List.replicate 500 'a'))
          ++ chunkOf ['l'] ['r'] (List.replicate 500 'a') := rfl
  rw [h]
  simp [List.length_append, chunk_len, List.length_take,
    List.length_replicate, Nat.min_self]

/-- C7 (witness): a corpus of six 500-character documents makes the
concatenated excerpts exceed 3000 characters, and the context portion of
the global prompt is then exactly 3000 characters. -/
theorem global_prompt_truncation_witness :
    ((allText truncIdx).take 3000).length = 3000 :=
  (global_prompt_truncation truncIdx (("hello").toList)
    (by decide) (by decide) (by decide)).2.2.2 truncIdx_len
